import Mathlib

/-!
Verification of the ABM communication-campaign simulator core
(`backend/model/abm.py`, `backend/model/network.py`, `backend/schemas.py`,
`backend/app.py`) against its natural-language specification.

Python floats are embedded as `ℚ` (all constants in the source are decimal
literals, so every computation of interest is exact rational arithmetic),
Python ints as `ℤ` or `ℕ`.  Calls to `np.random.random()` are embedded as an
explicit stream of draw values `ℕ → ℚ`, consumed in the order the source
consumes them; a Bernoulli test `np.random.random() < p` becomes `d i < p`.
-/

/-- Draw stream standing for successive `np.random.random()` results. -/
abbrev Draws := ℕ → ℚ

/-- `np.clip(x, lo, hi)`. -/
def npClip (lo hi x : ℚ) : ℚ := max lo (min hi x)

/-! ## Configuration records (from `backend/schemas.py`) -/

/-- `MediaChannel` (schemas.py): one media channel's budget share and effect
coefficient. -/
structure MediaChannel where
  share : ℚ
  alpha : ℚ
deriving DecidableEq

/-- `MediaMix` (schemas.py): the three channels. -/
structure MediaMix where
  sns : MediaChannel
  video : MediaChannel
  search : MediaChannel
deriving DecidableEq

/-- `WordOfMouthConfig` (schemas.py); only the fields the ABM reads. -/
structure WordOfMouthConfig where
  p_generate : ℚ
  decay : ℚ
deriving DecidableEq

/-- Pydantic field validation performed on one `MediaChannel`
(`share: Field(ge=0, le=1)`, `alpha: Field(ge=0, le=1)`). -/
def mediaChannelValid (c : MediaChannel) : Bool :=
  decide (0 ≤ c.share) && decide (c.share ≤ 1) &&
  decide (0 ≤ c.alpha) && decide (c.alpha ≤ 1)

/-- The whole validation the backend performs on a `MediaMix`: pydantic
validates the six scalar fields of the three channels; the `MediaMix` model
declares no further validator, and neither `run_simulation` (app.py) nor any
other code checks the sum of the shares. -/
def mediaMixValid (m : MediaMix) : Bool :=
  mediaChannelValid m.sns && mediaChannelValid m.video && mediaChannelValid m.search

/-- Pydantic field validation of `NetworkConfig` (schemas.py):
`n: Field(ge=100, le=100000)`, `k: Field(ge=2, le=20)`,
`beta: Field(ge=0, le=1)`. -/
def networkConfigValid (n k : ℤ) (beta : ℚ) : Bool :=
  decide (100 ≤ n) && decide (n ≤ 100000) &&
  decide (2 ≤ k) && decide (k ≤ 20) &&
  decide (0 ≤ beta) && decide (beta ≤ 1)

/-- Default of `ScenarioRequest.seed` (schemas.py: `Field(default=42)`). -/
def default_scenario_seed : ℤ := 42

/-- Per-repetition seed selection in `run_simulation` (app.py line 239):
`rep_seed = scenario.seed + rep if scenario.seed else None`.
Python truthiness makes an integer seed "present" exactly when it is nonzero. -/
def rep_seed (seed : ℤ) (rep : ℕ) : Option ℤ :=
  if seed ≠ 0 then some (seed + rep) else none

/-- Whether `CommunicationModel.__init__` (abm.py lines 343-347) seeds the
numpy RNG: `np.random.seed(seed)` runs iff the passed seed `is not None`. -/
def model_np_seeded (s : Option ℤ) : Bool := s.isSome

/-! ## Network generation (from `backend/model/network.py`) -/

/-- `NetworkType` (schemas.py). -/
inductive NetworkType
  | er
  | ws
  | ba
deriving DecidableEq

/-- The only error `generate_network` (network.py lines 9-25) can raise
itself. -/
inductive NetworkGenError
  | unknownNetworkType
deriving DecidableEq

/-- Parameter validation performed by `generate_network` itself: the body
dispatches on the topology kind and raises only for an unknown kind (which the
`NetworkType` enum makes unreachable); none of the three branches checks `k`
or `n` before handing off to graph construction. -/
def generate_network_param_check (t : NetworkType) (n k : ℤ) : Option NetworkGenError :=
  match t with
  | .er => none
  | .ws => none
  | .ba => none

/-- G(n, p) edge construction for the `er` branch: each unordered pair `(i, j)`
with `i < j` is included independently with probability `p` (one draw per
pair). -/
def erdos_renyi_edges (n : ℕ) (p : ℚ) (d : Draws) : List (ℕ × ℕ) :=
  (List.range n).flatMap fun i =>
    ((List.range n).filter fun j => decide (i < j) && decide (d (i * n + j) < p)).map
      fun j => (i, j)

/-- The `er` branch of `generate_network`: `p = k/(n-1)`, then the G(n, p)
graph on nodes `0..n-1`; no parameter validation occurs on this path. -/
def generate_network_er (n k : ℕ) (d : Draws) : List ℕ × List (ℕ × ℕ) :=
  (List.range n, erdos_renyi_edges n ((k : ℚ) / ((n : ℚ) - 1)) d)

/-! ## Derived agent scalars (from `CustomerAgent` in `backend/model/abm.py`) -/

/-- `CustomerAgent._calculate_interest_level` (abm.py lines 135-145). -/
def calculate_interest_level (openness risk_tolerance : ℚ)
    (age_group education_level : ℕ) : ℚ :=
  let base := openness * (6/10) + risk_tolerance * (4/10)
  let age_factor := ((6 : ℚ) - (age_group : ℚ)) / 5 * (2/10)
  let edu_factor := (education_level : ℚ) / 5 * (1/10)
  npClip 0 1 (base + age_factor + edu_factor)

/-- `CustomerAgent._calculate_receptivity` (abm.py lines 147-154). -/
def calculate_receptivity (media_affinity openness urban_rural : ℚ) : ℚ :=
  let base := media_affinity * (7/10) + openness * (3/10)
  let urban_factor := urban_rural * (1/10)
  npClip 0 1 (base + urban_factor)

/-- `CustomerAgent._calculate_influence` (abm.py lines 156-166): weighted sum,
multiplied by the influencer multiplier when `is_influencer`; the result is
returned without clipping. -/
def calculate_influence (social_influence : ℚ) (education_level income_level : ℕ)
    (is_influencer : Bool) (influence_multiplier : ℚ) : ℚ :=
  let base := social_influence * (4/10) + (education_level : ℚ) / 5 * (3/10) +
    (income_level : ℚ) / 5 * (3/10)
  if is_influencer then base * influence_multiplier else base

/-- Recency boost computed in `CustomerAgent._update_time_varying_attributes`
(abm.py lines 193-197), as a function of the raw `last_exposure` attribute
(initialised to `-999` in `__init__` and only ever reassigned to `0` on a media
exposure; no code increments it). -/
def recency_boost (last_exposure : ℤ) : ℚ :=
  if last_exposure < 5 then (1/10) * ((5 : ℚ) - (last_exposure : ℚ)) / 5 else 0

/-- `current_receptivity` as recomputed each step (abm.py line 199). -/
def current_receptivity_value (receptivity : ℚ) (last_exposure : ℤ) : ℚ :=
  min 1 (receptivity + recency_boost last_exposure)

/-! ## Agent state machine (from `CustomerAgent` in `backend/model/abm.py`) -/

/-- Funnel states `CustomerState` (abm.py lines 17-25) are the ordinals
`UNAWARE = 0` up to `ADOPTED = 6`; embedded as `ℕ`. -/
def ADOPTED : ℕ := 6

/-- Static per-agent attributes fixed at construction: personality traits,
demographics, influencer flag, and the derived scalars stored in `__init__`. -/
structure AgentTraits where
  openness : ℚ
  social_influence : ℚ
  media_affinity : ℚ
  risk_tolerance : ℚ
  age_group : ℕ
  income_level : ℕ
  urban_rural : ℚ
  education_level : ℕ
  is_influencer : Bool
  interest_level : ℚ
  receptivity : ℚ
deriving DecidableEq

/-- Mutable per-agent runtime state (abm.py lines 54-65). -/
structure AgentState where
  state : ℕ
  days_in_state : ℕ
  last_exposure : ℤ
  media_exposures : ℕ
  wom_received : ℕ
  current_openness : ℚ
  current_receptivity : ℚ
deriving DecidableEq

/-- Runtime state of a fresh agent (abm.py `__init__` lines 54-65):
`UNAWARE`, zero counters, `last_exposure = -999`, time-varying copies of the
static traits. -/
def initial_agent_state (tr : AgentTraits) : AgentState :=
  { state := 0
    days_in_state := 0
    last_exposure := -999
    media_exposures := 0
    wom_received := 0
    current_openness := tr.openness
    current_receptivity := tr.receptivity }

/-- Which sub-step of the per-agent step emitted a funnel-state transition. -/
inductive SubStep
  | media
  | wom
  | forgetting
  | natural
deriving DecidableEq

/-- One funnel-state transition, recorded for verification: the sub-step that
caused it and the state before/after. -/
structure Transition where
  sub : SubStep
  srcState : ℕ
  dstState : ℕ
deriving DecidableEq

/-- The view of a network neighbor that `_process_word_of_mouth` reads:
its current funnel state, stored influence, influencer flag, and
demographics. -/
structure NeighborView where
  state : ℕ
  influence : ℚ
  is_influencer : Bool
  age_group : ℕ
  income_level : ℕ
  urban_rural : ℚ
deriving DecidableEq

/-- `CustomerAgent._advance_state` (abm.py lines 313-317): advance one level
if below `ADOPTED`, resetting `days_in_state`; tagged with the calling
sub-step for the transition log. -/
def advance_state (tag : SubStep) (a : AgentState) : AgentState × List Transition :=
  if a.state < ADOPTED then
    ({ a with state := a.state + 1, days_in_state := 0 },
      [⟨tag, a.state, a.state + 1⟩])
  else (a, [])

/-- Sub-step 1 of `CustomerAgent.step`: `self.days_in_state += 1`
(abm.py line 170). -/
def increment_days_in_state (a : AgentState) : AgentState :=
  { a with days_in_state := a.days_in_state + 1 }

/-- Sub-step 2, `CustomerAgent._update_time_varying_attributes`
(abm.py lines 187-199). -/
def update_time_varying_attributes (tr : AgentTraits) (a : AgentState) : AgentState :=
  let habituation_factor : ℚ := 1 - (a.media_exposures : ℚ) * (1/1000)
  { a with
    current_openness := tr.openness * max (1/2) habituation_factor
    current_receptivity := current_receptivity_value tr.receptivity a.last_exposure }

/-- The three channel names iterated by `_process_media_exposure`. -/
inductive ChannelKind
  | sns
  | video
  | search
deriving DecidableEq

/-- `CustomerAgent._get_channel_demographic_modifier` (abm.py lines 227-248). -/
def channel_demographic_modifier (tr : AgentTraits) (c : ChannelKind) : ℚ :=
  match c with
  | .sns =>
    let age_factor := ((6 : ℚ) - (tr.age_group : ℚ)) / 5
    let urban_factor := tr.urban_rural
    let edu_factor := (tr.education_level : ℚ) / 5
    (5/10) + (age_factor + urban_factor + edu_factor) * (3/10)
  | .video =>
    let age_factor := ((6 : ℚ) - (tr.age_group : ℚ)) / 5 * (3/10)
    let income_factor := (tr.income_level : ℚ) / 5 * (2/10)
    (7/10) + age_factor + income_factor
  | .search =>
    let edu_factor := (tr.education_level : ℚ) / 5 * (4/10)
    let income_factor := (tr.income_level : ℚ) / 5 * (3/10)
    (6/10) + edu_factor + income_factor

/-- One iteration of the channel loop in `_process_media_exposure`
(abm.py lines 205-225): exposure Bernoulli, then on success bookkeeping and an
effect Bernoulli that advances the state.  Returns the updated state, the next
unused draw index, and the transition log. -/
def media_channel_step (ch : MediaChannel) (m : ℚ) (d : Draws) (i : ℕ)
    (a : AgentState) : AgentState × ℕ × List Transition :=
  let exposure_prob := ch.share * (1/10) * m
  if d i < exposure_prob then
    let a1 := { a with media_exposures := a.media_exposures + 1, last_exposure := 0 }
    let effect_prob := ch.alpha * a1.current_receptivity * a1.current_openness
    if d (i + 1) < effect_prob then
      let r := advance_state SubStep.media a1
      (r.1, i + 2, r.2)
    else (a1, i + 2, [])
  else (a, i + 1, [])

/-- Sub-step 3, `CustomerAgent._process_media_exposure` (abm.py lines 201-225):
the loop body over `sns`, `video`, `search` in source order. -/
def process_media_exposure (mix : MediaMix) (tr : AgentTraits) (d : Draws) (i : ℕ)
    (a : AgentState) : AgentState × ℕ × List Transition :=
  let r1 := media_channel_step mix.sns (channel_demographic_modifier tr ChannelKind.sns) d i a
  let r2 := media_channel_step mix.video (channel_demographic_modifier tr ChannelKind.video) d r1.2.1 r1.1
  let r3 := media_channel_step mix.search (channel_demographic_modifier tr ChannelKind.search) d r2.2.1 r2.1
  (r3.1, r3.2.1, r1.2.2 ++ r2.2.2 ++ r3.2.2)

/-- `CustomerAgent._calculate_similarity_bonus` (abm.py lines 285-302). -/
def similarity_bonus (tr : AgentTraits) (nb : NeighborView) : ℚ :=
  let age_similarity := max 0 (1 - |(tr.age_group : ℚ) - (nb.age_group : ℚ)| / 4)
  let income_similarity := max 0 (1 - |(tr.income_level : ℚ) - (nb.income_level : ℚ)| / 4)
  let urban_similarity := max 0 (1 - |tr.urban_rural - nb.urban_rural|)
  (age_similarity * (4/10) + income_similarity * (3/10) + urban_similarity * (3/10)) * (3/10)

/-- One iteration of the neighbor loop in `_process_word_of_mouth`
(abm.py lines 254-283): neighbors below `LIKING` (state 4) generate nothing
and consume no draw; otherwise a generation Bernoulli and, on success,
bookkeeping and an effect Bernoulli that advances the state. -/
def wom_neighbor_step (wom : WordOfMouthConfig) (tr : AgentTraits)
    (nb : NeighborView) (d : Draws) (i : ℕ) (a : AgentState) :
    AgentState × ℕ × List Transition :=
  if 4 ≤ nb.state then
    let base_wom_prob := wom.p_generate * nb.influence * (1/10)
    let wom_prob := base_wom_prob * (1 + similarity_bonus tr nb)
    if d i < wom_prob then
      let a1 := { a with wom_received := a.wom_received + 1 }
      let base_effect := (5/100) * a1.current_receptivity
      let influencer_factor : ℚ := if nb.is_influencer then 2 else 1
      let effect_prob := base_effect * tr.social_influence * influencer_factor
      if d (i + 1) < effect_prob then
        let r := advance_state SubStep.wom a1
        (r.1, i + 2, r.2)
      else (a1, i + 2, [])
    else (a, i + 1, [])
  else (a, i, [])

/-- Sub-step 4, `CustomerAgent._process_word_of_mouth` (abm.py lines 250-283):
fold of `wom_neighbor_step` over the neighbor list in order. -/
def process_word_of_mouth (wom : WordOfMouthConfig) (tr : AgentTraits)
    (nbs : List NeighborView) (d : Draws) (i : ℕ) (a : AgentState) :
    AgentState × ℕ × List Transition :=
  match nbs with
  | [] => (a, i, [])
  | nb :: rest =>
    let r1 := wom_neighbor_step wom tr nb d i a
    let r2 := process_word_of_mouth wom tr rest d r1.2.1 r1.1
    (r2.1, r2.2.1, r1.2.2 ++ r2.2.2)

/-- Sub-step 5, `CustomerAgent._process_forgetting` (abm.py lines 304-311):
the forgetting draw is always consumed; on success with a state above
`UNAWARE`, regress one level and reset `days_in_state`. -/
def process_forgetting (wom : WordOfMouthConfig) (d : Draws) (i : ℕ)
    (a : AgentState) : AgentState × ℕ × List Transition :=
  let forget_prob := (1/100) * (1 + (a.days_in_state : ℚ) * (1/10)) * wom.decay
  if d i < forget_prob ∧ 0 < a.state then
    ({ a with state := a.state - 1, days_in_state := 0 }, i + 1,
      [⟨SubStep.forgetting, a.state, a.state - 1⟩])
  else (a, i + 1, [])

/-- Sub-step 6, `CustomerAgent._update_state` (abm.py lines 319-326): natural
progression, only from `AWARE` (1) or `INTERESTED` (2); the draw is consumed
only in that case. -/
def update_state_natural (tr : AgentTraits) (d : Draws) (i : ℕ)
    (a : AgentState) : AgentState × ℕ × List Transition :=
  if a.state = 1 ∨ a.state = 2 then
    let progress_prob := tr.interest_level * (2/100)
    if d i < progress_prob then
      let r := advance_state SubStep.natural a
      (r.1, i + 1, r.2)
    else (a, i + 1, [])
  else (a, i, [])

/-- `CustomerAgent.step` (abm.py lines 168-185): the six sub-steps in source
order, unconditionally. -/
def agent_step (mix : MediaMix) (wom : WordOfMouthConfig) (tr : AgentTraits)
    (nbs : List NeighborView) (d : Draws) (i : ℕ) (a : AgentState) :
    AgentState × ℕ × List Transition :=
  let a1 := increment_days_in_state a
  let a2 := update_time_varying_attributes tr a1
  let r3 := process_media_exposure mix tr d i a2
  let r4 := process_word_of_mouth wom tr nbs d r3.2.1 r3.1
  let r5 := process_forgetting wom d r4.2.1 r4.1
  let r6 := update_state_natural tr d r5.2.1 r5.1
  (r6.1, r6.2.1, r3.2.2 ++ r4.2.2 ++ r5.2.2 ++ r6.2.2)

/-- Iterated stepping of one agent over a whole run: at step `t` the agent
sees the neighbor views `nbs t` (its neighbors' current states, whatever the
scheduler produced) and the fresh draw stream `ds t`. -/
def agent_run (mix : MediaMix) (wom : WordOfMouthConfig) (tr : AgentTraits)
    (nbs : ℕ → List NeighborView) (ds : ℕ → Draws) : ℕ → AgentState → AgentState
  | 0, a => a
  | k + 1, a => (agent_step mix wom tr (nbs k) (ds k) 0 (agent_run mix wom tr nbs ds k a)).1

/-! ## Network preview (from `network_to_preview` in `backend/model/network.py`) -/

/-- A NetworkX graph as the preview code consumes it: its node list and edge
list. -/
structure PreviewGraph where
  nodes : List ℕ
  edges : List (ℕ × ℕ)
deriving DecidableEq

/-- `graph.subgraph(keep)`: the induced subgraph — the kept nodes and exactly
the edges whose both endpoints are kept. -/
def subgraph (g : PreviewGraph) (keep : List ℕ) : PreviewGraph :=
  { nodes := g.nodes.filter fun v => decide (v ∈ keep)
    edges := g.edges.filter fun e => decide (e.1 ∈ keep) && decide (e.2 ∈ keep) }

/-- `network_to_preview` (network.py lines 28-57): when the graph exceeds
`max_nodes`, restrict to the induced subgraph on a sample of `max_nodes`
distinct nodes (`np.random.choice(nodes, max_nodes, replace=False)`, passed
here as `sampled`); then emit the nodes and edges of the (possibly restricted)
graph. -/
def network_to_preview (g : PreviewGraph) (max_nodes : ℕ) (sampled : List ℕ) :
    List ℕ × List (ℕ × ℕ) :=
  let sub := if max_nodes < g.nodes.length then subgraph g sampled else g
  (sub.nodes, sub.edges)

/-! ## Helper lemmas -/

theorem npClip01_nonneg (x : ℚ) : 0 ≤ npClip 0 1 x := le_max_left 0 _

theorem npClip01_le_one (x : ℚ) : npClip 0 1 x ≤ 1 :=
  max_le (by norm_num) (min_le_left 1 _)

/-! ## Claim theorems: seeding, receptivity, derived scalars, validation -/

/-- C1 The per-repetition seeding in `run_simulation` treats a base seed of 0
as missing: `rep_seed 0 rep` is `None`, so neither the Mesa model nor numpy is
reseeded and the repetition runs on unseeded nondeterminism, contradicting the
claim that base seed 0 yields repetitions seeded `0 + rep_index`.  For any
nonzero base seed the code does produce `base_seed + rep_index`, and a seed
omitted from the request defaults to the fixed documented value 42. -/
theorem c1_seed_zero_unseeded :
    rep_seed 0 0 = none ∧ model_np_seeded (rep_seed 0 0) = false ∧
      rep_seed 42 3 = some 45 ∧ default_scenario_seed = 42 :=
  ⟨by decide, by decide, by decide, by decide⟩

/-- C3 A never-exposed agent has `last_exposure = -999`, and since
`last_exposure < 5` the code grants it `recency_boost = 0.1×(5−(−999))/5 =
1004/50 ≈ 20.08` (not 0 as the claim states), saturating
`current_receptivity` at 1; after an exposure the boost is the constant 0.1
because nothing ever increments `last_exposure`. -/
theorem c3_never_exposed_boost :
    recency_boost (-999) = 1004/50 ∧
      current_receptivity_value (1/2) (-999) = 1 ∧
      recency_boost (-999) ≠ 0 ∧ recency_boost 0 = 1/10 := by
  have h1 : recency_boost (-999) = 1004/50 := by norm_num [recency_boost]
  refine ⟨h1, ?_, by rw [h1]; norm_num, by norm_num [recency_boost]⟩
  simp only [current_receptivity_value, h1]
  exact min_eq_left (by norm_num)

/-- C4 counterexample: an influencer agent with `social_influence = 1`,
`education_level = income_level = 5` and the default multiplier 3 receives
`influence = 3`, which violates the claimed clipping of `influence` to
[0, 1] — `_calculate_influence` never clips. -/
theorem c4_influence_exceeds_one :
    calculate_influence 1 5 5 true 3 = 3 ∧ ¬ calculate_influence 1 5 5 true 3 ≤ 1 := by
  have h : calculate_influence 1 5 5 true 3 = 3 := by
    norm_num [calculate_influence]
  exact ⟨h, by rw [h]; norm_num⟩

/-- C4 (amended) `interest_level` and `receptivity` are clipped into [0, 1];
`influence` is the stated weighted sum, multiplied by the influencer
multiplier when `is_influencer`, but never clipped: it is only guaranteed to
lie in [0, multiplier], and in [0, 1] just when the agent is not an
influencer. -/
theorem c4_derived_scalar_bounds
    (openness social_influence media_affinity risk_tolerance urban_rural : ℚ)
    (age_group income_level education_level : ℕ)
    (is_influencer : Bool) (influence_multiplier : ℚ)
    (hs0 : 0 ≤ social_influence) (hs1 : social_influence ≤ 1)
    (hi5 : income_level ≤ 5) (he5 : education_level ≤ 5)
    (hmu : 1 ≤ influence_multiplier) :
    (0 ≤ calculate_interest_level openness risk_tolerance age_group education_level ∧
      calculate_interest_level openness risk_tolerance age_group education_level ≤ 1) ∧
    (0 ≤ calculate_receptivity media_affinity openness urban_rural ∧
      calculate_receptivity media_affinity openness urban_rural ≤ 1) ∧
    (0 ≤ calculate_influence social_influence education_level income_level
        is_influencer influence_multiplier ∧
      calculate_influence social_influence education_level income_level
        is_influencer influence_multiplier ≤ influence_multiplier) ∧
    (is_influencer = false →
      calculate_influence social_influence education_level income_level
        is_influencer influence_multiplier ≤ 1) := by
  have hcastE : (education_level : ℚ) ≤ 5 := by exact_mod_cast he5
  have hcastI : (income_level : ℚ) ≤ 5 := by exact_mod_cast hi5
  have hcastE0 : (0 : ℚ) ≤ (education_level : ℚ) := Nat.cast_nonneg _
  have hcastI0 : (0 : ℚ) ≤ (income_level : ℚ) := Nat.cast_nonneg _
  have hbase0 : 0 ≤ social_influence * (4/10) + (education_level : ℚ) / 5 * (3/10) +
      (income_level : ℚ) / 5 * (3/10) := by positivity
  have hbase1 : social_influence * (4/10) + (education_level : ℚ) / 5 * (3/10) +
      (income_level : ℚ) / 5 * (3/10) ≤ 1 := by linarith
  have hmu0 : (0 : ℚ) ≤ influence_multiplier := by linarith
  refine ⟨⟨npClip01_nonneg _, npClip01_le_one _⟩,
    ⟨npClip01_nonneg _, npClip01_le_one _⟩, ?_, ?_⟩
  · cases is_influencer with
    | false => exact ⟨hbase0, le_trans hbase1 hmu⟩
    | true =>
      constructor
      · exact mul_nonneg hbase0 hmu0
      · exact mul_le_of_le_one_left hmu0 hbase1
  · intro hfalse
    subst hfalse
    exact hbase1

theorem c4_witness :
    (0 ≤ (1/2 : ℚ) ∧ (1/2 : ℚ) ≤ 1 ∧ (3 : ℕ) ≤ 5 ∧ (1 : ℚ) ≤ 3) ∧
      0 ≤ calculate_influence (1/2) 3 3 true 3 ∧
      calculate_influence (1/2) 3 3 true 3 ≤ 3 :=
  ⟨⟨by norm_num, by norm_num, by norm_num, by norm_num⟩,
    (c4_derived_scalar_bounds (1/2) (1/2) (1/2) (1/2) (1/2) 3 3 3 true 3
      (by norm_num) (by norm_num) (by norm_num) (by norm_num) (by norm_num)).2.2.1⟩

/-- C5 counterexample: a media mix whose three shares are each 0.5 (so the sum
is 1.5, off from 1 by far more than 1e-6) passes the complete validation the
backend performs — no code checks the sum, so the claimed rejection does not
exist. -/
theorem c5_sum_not_validated :
    mediaMixValid ⟨⟨1/2, 0⟩, ⟨1/2, 0⟩, ⟨1/2, 0⟩⟩ = true ∧
      ¬ |(1/2 + 1/2 + 1/2 : ℚ) - 1| ≤ 1/1000000 := by
  constructor
  · norm_num [mediaMixValid, mediaChannelValid]
  · rw [show (1/2 + 1/2 + 1/2 : ℚ) - 1 = 1/2 by norm_num,
      abs_of_pos (by norm_num : (0 : ℚ) < 1/2)]
    norm_num

/-- C5 (amended) the backend validates only that each channel's `share` and
`alpha` individually lie in [0, 1]; any such mix is accepted regardless of the
sum of its shares, and simulation proceeds. -/
theorem c5_fieldwise_validation_only (m : MediaMix)
    (h1 : 0 ≤ m.sns.share) (h2 : m.sns.share ≤ 1)
    (h3 : 0 ≤ m.sns.alpha) (h4 : m.sns.alpha ≤ 1)
    (h5 : 0 ≤ m.video.share) (h6 : m.video.share ≤ 1)
    (h7 : 0 ≤ m.video.alpha) (h8 : m.video.alpha ≤ 1)
    (h9 : 0 ≤ m.search.share) (h10 : m.search.share ≤ 1)
    (h11 : 0 ≤ m.search.alpha) (h12 : m.search.alpha ≤ 1) :
    mediaMixValid m = true := by
  simp [mediaMixValid, mediaChannelValid, h1, h2, h3, h4, h5, h6, h7, h8, h9, h10, h11, h12]

theorem c5_witness :
    mediaMixValid ⟨⟨1/5, 1⟩, ⟨1/5, 0⟩, ⟨1/5, 1/2⟩⟩ = true :=
  c5_fieldwise_validation_only ⟨⟨1/5, 1⟩, ⟨1/5, 0⟩, ⟨1/5, 1/2⟩⟩
    (by norm_num) (by norm_num) (by norm_num) (by norm_num)
    (by norm_num) (by norm_num) (by norm_num) (by norm_num)
    (by norm_num) (by norm_num) (by norm_num) (by norm_num)

/-- C6 counterexample: `generate_network` itself performs no degree check, and
for the random (`er`) topology with n = 100, k = 1 (so k < 2) it returns a
100-node graph without any configuration error. -/
theorem c6_no_degree_validation :
    generate_network_param_check NetworkType.er 100 1 = none ∧
      (generate_network_er 100 1 fun _ => 1).1.length = 100 ∧ (1 : ℤ) < 2 := by
  refine ⟨rfl, ?_, by decide⟩
  simp [generate_network_er]

/-- C6 (amended) the degree bounds are enforced only by the pydantic
`NetworkConfig` schema (2 ≤ k ≤ 20, 100 ≤ n ≤ 100000), not by
`generate_network`: any configuration the schema accepts satisfies
2 ≤ k and k < n, so k < 2 is rejected at request-validation time and k ≥ n is
unrepresentable; `generate_network` itself checks nothing, and its `er` branch
succeeds for any k. -/
theorem c6_schema_bounds_exclude_bad_degree (n k : ℤ) (beta : ℚ)
    (h : networkConfigValid n k beta = true) : 2 ≤ k ∧ k < n := by
  simp only [networkConfigValid, Bool.and_eq_true, decide_eq_true_eq] at h
  omega

theorem c6_witness :
    networkConfigValid 100 6 (1/10) = true ∧ (2 ≤ (6 : ℤ) ∧ (6 : ℤ) < 100) :=
  ⟨by norm_num [networkConfigValid],
    c6_schema_bounds_exclude_bad_degree 100 6 (1/10) (by norm_num [networkConfigValid])⟩

/-! ## Sub-step lemmas for the agent state machine -/

theorem advance_state_state_le (tag : SubStep) (a : AgentState) (h : a.state ≤ 6) :
    (advance_state tag a).1.state ≤ 6 := by
  unfold advance_state ADOPTED
  split
  · next hlt => exact Nat.succ_le_of_lt hlt
  · exact h

theorem advance_state_trans (tag : SubStep) (a : AgentState) :
    ∀ t ∈ (advance_state tag a).2, t.sub = tag ∧ t.dstState = t.srcState + 1 := by
  unfold advance_state
  split
  · intro t ht
    simp only [List.mem_singleton] at ht
    subst ht
    exact ⟨rfl, rfl⟩
  · intro t ht
    simp at ht

theorem advance_state_days (tag : SubStep) (a : AgentState) :
    ((advance_state tag a).1.state = a.state ∧
      (advance_state tag a).1.days_in_state = a.days_in_state) ∨
      (advance_state tag a).1.days_in_state = 0 := by
  unfold advance_state
  split
  · exact Or.inr rfl
  · exact Or.inl ⟨rfl, rfl⟩

theorem days_rel_trans {x y z : AgentState}
    (h1 : (y.state = x.state ∧ y.days_in_state = x.days_in_state) ∨ y.days_in_state = 0)
    (h2 : (z.state = y.state ∧ z.days_in_state = y.days_in_state) ∨ z.days_in_state = 0) :
    (z.state = x.state ∧ z.days_in_state = x.days_in_state) ∨ z.days_in_state = 0 := by
  rcases h2 with ⟨hz1, hz2⟩ | hz
  · rcases h1 with ⟨hy1, hy2⟩ | hy
    · exact Or.inl ⟨hz1.trans hy1, hz2.trans hy2⟩
    · exact Or.inr (hz2.trans hy)
  · exact Or.inr hz

theorem media_channel_step_state_le (ch : MediaChannel) (m : ℚ) (d : Draws) (i : ℕ)
    (a : AgentState) (h : a.state ≤ 6) : (media_channel_step ch m d i a).1.state ≤ 6 := by
  simp only [media_channel_step]
  split
  · split
    · exact advance_state_state_le SubStep.media _ h
    · exact h
  · exact h

theorem media_channel_step_trans (ch : MediaChannel) (m : ℚ) (d : Draws) (i : ℕ)
    (a : AgentState) :
    ∀ t ∈ (media_channel_step ch m d i a).2.2,
      t.sub = SubStep.media ∧ t.dstState = t.srcState + 1 := by
  simp only [media_channel_step]
  split
  · split
    · exact advance_state_trans SubStep.media _
    · intro t ht; simp at ht
  · intro t ht; simp at ht

theorem media_channel_step_days (ch : MediaChannel) (m : ℚ) (d : Draws) (i : ℕ)
    (a : AgentState) :
    ((media_channel_step ch m d i a).1.state = a.state ∧
      (media_channel_step ch m d i a).1.days_in_state = a.days_in_state) ∨
      (media_channel_step ch m d i a).1.days_in_state = 0 := by
  simp only [media_channel_step]
  split
  · split
    · exact advance_state_days SubStep.media _
    · exact Or.inl ⟨rfl, rfl⟩
  · exact Or.inl ⟨rfl, rfl⟩

theorem media_channel_step_alpha_zero (ch : MediaChannel) (m : ℚ) (d : Draws) (i : ℕ)
    (a : AgentState) (hα : ch.alpha = 0) (hd : ∀ j, 0 ≤ d j) :
    (media_channel_step ch m d i a).1.state = a.state := by
  simp only [media_channel_step]
  split
  · split
    · next hlt =>
      rw [hα, zero_mul, zero_mul] at hlt
      exact absurd hlt (not_lt.mpr (hd _))
    · rfl
  · rfl

theorem process_media_exposure_state_le (mix : MediaMix) (tr : AgentTraits) (d : Draws)
    (i : ℕ) (a : AgentState) (h : a.state ≤ 6) :
    (process_media_exposure mix tr d i a).1.state ≤ 6 := by
  simp only [process_media_exposure]
  exact media_channel_step_state_le _ _ _ _ _
    (media_channel_step_state_le _ _ _ _ _ (media_channel_step_state_le _ _ _ _ _ h))

theorem process_media_exposure_trans (mix : MediaMix) (tr : AgentTraits) (d : Draws)
    (i : ℕ) (a : AgentState) :
    ∀ t ∈ (process_media_exposure mix tr d i a).2.2,
      t.sub = SubStep.media ∧ t.dstState = t.srcState + 1 := by
  simp only [process_media_exposure]
  intro t ht
  simp only [List.mem_append] at ht
  rcases ht with (h1 | h2) | h3
  · exact media_channel_step_trans _ _ _ _ _ t h1
  · exact media_channel_step_trans _ _ _ _ _ t h2
  · exact media_channel_step_trans _ _ _ _ _ t h3

theorem process_media_exposure_days (mix : MediaMix) (tr : AgentTraits) (d : Draws)
    (i : ℕ) (a : AgentState) :
    ((process_media_exposure mix tr d i a).1.state = a.state ∧
      (process_media_exposure mix tr d i a).1.days_in_state = a.days_in_state) ∨
      (process_media_exposure mix tr d i a).1.days_in_state = 0 := by
  simp only [process_media_exposure]
  exact days_rel_trans (days_rel_trans (media_channel_step_days _ _ _ _ _)
    (media_channel_step_days _ _ _ _ _)) (media_channel_step_days _ _ _ _ _)

theorem process_media_exposure_alpha_zero (mix : MediaMix) (tr : AgentTraits)
    (d : Draws) (i : ℕ) (a : AgentState)
    (h1 : mix.sns.alpha = 0) (h2 : mix.video.alpha = 0) (h3 : mix.search.alpha = 0)
    (hd : ∀ j, 0 ≤ d j) :
    (process_media_exposure mix tr d i a).1.state = a.state := by
  simp only [process_media_exposure]
  rw [media_channel_step_alpha_zero _ _ _ _ _ h3 hd,
    media_channel_step_alpha_zero _ _ _ _ _ h2 hd,
    media_channel_step_alpha_zero _ _ _ _ _ h1 hd]

theorem wom_neighbor_step_state_le (wom : WordOfMouthConfig) (tr : AgentTraits)
    (nb : NeighborView) (d : Draws) (i : ℕ) (a : AgentState) (h : a.state ≤ 6) :
    (wom_neighbor_step wom tr nb d i a).1.state ≤ 6 := by
  simp only [wom_neighbor_step]
  split
  · split
    · split
      · split
        · exact advance_state_state_le SubStep.wom _ h
        · exact h
      · split
        · exact advance_state_state_le SubStep.wom _ h
        · exact h
    · exact h
  · exact h

theorem wom_neighbor_step_trans (wom : WordOfMouthConfig) (tr : AgentTraits)
    (nb : NeighborView) (d : Draws) (i : ℕ) (a : AgentState) :
    ∀ t ∈ (wom_neighbor_step wom tr nb d i a).2.2,
      t.sub = SubStep.wom ∧ t.dstState = t.srcState + 1 := by
  simp only [wom_neighbor_step]
  split
  · split
    · split
      · split
        · exact advance_state_trans SubStep.wom _
        · intro t ht; simp at ht
      · split
        · exact advance_state_trans SubStep.wom _
        · intro t ht; simp at ht
    · intro t ht; simp at ht
  · intro t ht; simp at ht

theorem wom_neighbor_step_days (wom : WordOfMouthConfig) (tr : AgentTraits)
    (nb : NeighborView) (d : Draws) (i : ℕ) (a : AgentState) :
    ((wom_neighbor_step wom tr nb d i a).1.state = a.state ∧
      (wom_neighbor_step wom tr nb d i a).1.days_in_state = a.days_in_state) ∨
      (wom_neighbor_step wom tr nb d i a).1.days_in_state = 0 := by
  simp only [wom_neighbor_step]
  split
  · split
    · split
      · split
        · exact advance_state_days SubStep.wom _
        · exact Or.inl ⟨rfl, rfl⟩
      · split
        · exact advance_state_days SubStep.wom _
        · exact Or.inl ⟨rfl, rfl⟩
    · exact Or.inl ⟨rfl, rfl⟩
  · exact Or.inl ⟨rfl, rfl⟩

theorem wom_neighbor_step_pgen_zero (wom : WordOfMouthConfig) (tr : AgentTraits)
    (nb : NeighborView) (d : Draws) (i : ℕ) (a : AgentState)
    (hp : wom.p_generate = 0) (hd : ∀ j, 0 ≤ d j) :
    (wom_neighbor_step wom tr nb d i a).1.state = a.state := by
  simp only [wom_neighbor_step]
  split
  · split
    · next hlt =>
      rw [hp, zero_mul, zero_mul, zero_mul] at hlt
      exact absurd hlt (not_lt.mpr (hd _))
    · rfl
  · rfl

theorem process_word_of_mouth_state_le (wom : WordOfMouthConfig) (tr : AgentTraits)
    (nbs : List NeighborView) (d : Draws) :
    ∀ (i : ℕ) (a : AgentState), a.state ≤ 6 →
      (process_word_of_mouth wom tr nbs d i a).1.state ≤ 6 := by
  induction nbs with
  | nil => intro i a h; exact h
  | cons nb rest ih =>
    intro i a h
    simp only [process_word_of_mouth]
    exact ih _ _ (wom_neighbor_step_state_le wom tr nb d i a h)

theorem process_word_of_mouth_trans (wom : WordOfMouthConfig) (tr : AgentTraits)
    (nbs : List NeighborView) (d : Draws) :
    ∀ (i : ℕ) (a : AgentState), ∀ t ∈ (process_word_of_mouth wom tr nbs d i a).2.2,
      t.sub = SubStep.wom ∧ t.dstState = t.srcState + 1 := by
  induction nbs with
  | nil => intro i a t ht; simp [process_word_of_mouth] at ht
  | cons nb rest ih =>
    intro i a t ht
    simp only [process_word_of_mouth, List.mem_append] at ht
    rcases ht with h1 | h2
    · exact wom_neighbor_step_trans wom tr nb d i a t h1
    · exact ih _ _ t h2

theorem process_word_of_mouth_days (wom : WordOfMouthConfig) (tr : AgentTraits)
    (nbs : List NeighborView) (d : Draws) :
    ∀ (i : ℕ) (a : AgentState),
      ((process_word_of_mouth wom tr nbs d i a).1.state = a.state ∧
        (process_word_of_mouth wom tr nbs d i a).1.days_in_state = a.days_in_state) ∨
        (process_word_of_mouth wom tr nbs d i a).1.days_in_state = 0 := by
  induction nbs with
  | nil => intro i a; exact Or.inl ⟨rfl, rfl⟩
  | cons nb rest ih =>
    intro i a
    simp only [process_word_of_mouth]
    exact days_rel_trans (wom_neighbor_step_days wom tr nb d i a) (ih _ _)

theorem process_word_of_mouth_pgen_zero (wom : WordOfMouthConfig) (tr : AgentTraits)
    (nbs : List NeighborView) (d : Draws) (hp : wom.p_generate = 0)
    (hd : ∀ j, 0 ≤ d j) :
    ∀ (i : ℕ) (a : AgentState), (process_word_of_mouth wom tr nbs d i a).1.state = a.state := by
  induction nbs with
  | nil => intro i a; rfl
  | cons nb rest ih =>
    intro i a
    simp only [process_word_of_mouth]
    rw [ih _ _, wom_neighbor_step_pgen_zero wom tr nb d i a hp hd]

theorem process_forgetting_state_le (wom : WordOfMouthConfig) (d : Draws) (i : ℕ)
    (a : AgentState) (h : a.state ≤ 6) : (process_forgetting wom d i a).1.state ≤ 6 := by
  simp only [process_forgetting]
  split
  · exact le_trans (Nat.sub_le _ _) h
  · exact h

theorem process_forgetting_trans (wom : WordOfMouthConfig) (d : Draws) (i : ℕ)
    (a : AgentState) :
    ∀ t ∈ (process_forgetting wom d i a).2.2,
      t.sub = SubStep.forgetting ∧ t.srcState = t.dstState + 1 := by
  simp only [process_forgetting]
  split
  · next hc =>
    intro t ht
    simp only [List.mem_singleton] at ht
    subst ht
    refine ⟨rfl, ?_⟩
    show a.state = a.state - 1 + 1
    obtain ⟨-, hpos⟩ := hc
    omega
  · intro t ht; simp at ht

theorem process_forgetting_state_zero (wom : WordOfMouthConfig) (d : Draws) (i : ℕ)
    (a : AgentState) (h : a.state = 0) : (process_forgetting wom d i a).1.state = 0 := by
  simp only [process_forgetting]
  split
  · next hc => omega
  · exact h

theorem update_state_natural_state_le (tr : AgentTraits) (d : Draws) (i : ℕ)
    (a : AgentState) (h : a.state ≤ 6) : (update_state_natural tr d i a).1.state ≤ 6 := by
  simp only [update_state_natural]
  split
  · split
    · exact advance_state_state_le SubStep.natural _ h
    · exact h
  · exact h

theorem update_state_natural_trans (tr : AgentTraits) (d : Draws) (i : ℕ)
    (a : AgentState) :
    ∀ t ∈ (update_state_natural tr d i a).2.2,
      t.sub = SubStep.natural ∧ t.dstState = t.srcState + 1 := by
  simp only [update_state_natural]
  split
  · split
    · exact advance_state_trans SubStep.natural _
    · intro t ht; simp at ht
  · intro t ht; simp at ht

theorem update_state_natural_days (tr : AgentTraits) (d : Draws) (i : ℕ)
    (a : AgentState) :
    ((update_state_natural tr d i a).1.state = a.state ∧
      (update_state_natural tr d i a).1.days_in_state = a.days_in_state) ∨
      (update_state_natural tr d i a).1.days_in_state = 0 := by
  simp only [update_state_natural]
  split
  · split
    · exact advance_state_days SubStep.natural _
    · exact Or.inl ⟨rfl, rfl⟩
  · exact Or.inl ⟨rfl, rfl⟩

theorem update_state_natural_state_zero (tr : AgentTraits) (d : Draws) (i : ℕ)
    (a : AgentState) (h : a.state = 0) : (update_state_natural tr d i a).1.state = 0 := by
  simp only [update_state_natural]
  split
  · next hc => exact absurd hc (by omega)
  · exact h

theorem agent_step_zero (mix : MediaMix) (wom : WordOfMouthConfig) (tr : AgentTraits)
    (nbs : List NeighborView) (d : Draws) (i : ℕ) (a : AgentState)
    (h1 : mix.sns.alpha = 0) (h2 : mix.video.alpha = 0) (h3 : mix.search.alpha = 0)
    (hp : wom.p_generate = 0) (hd : ∀ j, 0 ≤ d j) (h0 : a.state = 0) :
    (agent_step mix wom tr nbs d i a).1.state = 0 := by
  simp only [agent_step]
  apply update_state_natural_state_zero
  apply process_forgetting_state_zero
  rw [process_word_of_mouth_pgen_zero wom tr nbs d hp hd,
    process_media_exposure_alpha_zero mix tr d i _ h1 h2 h3 hd]
  exact h0

/-! ## Claim theorems: the agent state machine -/

/-- C2 For any configuration, traits, neighbor views, draw stream and agent
state with funnel state at most `ADOPTED` (6), one full agent step keeps the
funnel state in [0, 6] (the lower bound holding by the `ℕ` embedding), every
recorded funnel-state transition moves exactly one level up or down, and every
downward transition was emitted by the forgetting sub-step. -/
theorem c2_funnel_state_invariant (mix : MediaMix) (wom : WordOfMouthConfig)
    (tr : AgentTraits) (nbs : List NeighborView) (d : Draws) (i : ℕ) (a : AgentState)
    (h : a.state ≤ 6) :
    (agent_step mix wom tr nbs d i a).1.state ≤ 6 ∧
    (∀ t ∈ (agent_step mix wom tr nbs d i a).2.2,
      t.dstState = t.srcState + 1 ∨ t.srcState = t.dstState + 1) ∧
    (∀ t ∈ (agent_step mix wom tr nbs d i a).2.2,
      t.dstState < t.srcState → t.sub = SubStep.forgetting) := by
  simp only [agent_step]
  refine ⟨?_, ?_, ?_⟩
  · exact update_state_natural_state_le _ _ _ _
      (process_forgetting_state_le _ _ _ _
        (process_word_of_mouth_state_le _ _ _ _ _ _
          (process_media_exposure_state_le _ _ _ _ _ h)))
  · intro t ht
    simp only [List.mem_append] at ht
    rcases ht with ((h3 | h4) | h5) | h6
    · exact Or.inl (process_media_exposure_trans _ _ _ _ _ t h3).2
    · exact Or.inl (process_word_of_mouth_trans _ _ _ _ _ _ t h4).2
    · exact Or.inr (process_forgetting_trans _ _ _ _ t h5).2
    · exact Or.inl (update_state_natural_trans _ _ _ _ t h6).2
  · intro t ht hdec
    simp only [List.mem_append] at ht
    rcases ht with ((h3 | h4) | h5) | h6
    · exact absurd hdec (by have := (process_media_exposure_trans _ _ _ _ _ t h3).2; omega)
    · exact absurd hdec (by have := (process_word_of_mouth_trans _ _ _ _ _ _ t h4).2; omega)
    · exact (process_forgetting_trans _ _ _ _ t h5).1
    · exact absurd hdec (by have := (update_state_natural_trans _ _ _ _ t h6).2; omega)

theorem c2_witness :
    ((⟨0, 0, -999, 0, 0, 1, 1⟩ : AgentState).state ≤ 6) ∧
      (agent_step ⟨⟨1, 1⟩, ⟨0, 0⟩, ⟨0, 0⟩⟩ ⟨1/10, 9/10⟩
        ⟨1, 1, 1, 1, 3, 3, 1/2, 3, false, 1/2, 1/2⟩ [] (fun _ => 0) 0
        ⟨0, 0, -999, 0, 0, 1, 1⟩).1.state ≤ 6 :=
  ⟨by decide, (c2_funnel_state_invariant ⟨⟨1, 1⟩, ⟨0, 0⟩, ⟨0, 0⟩⟩ ⟨1/10, 9/10⟩
    ⟨1, 1, 1, 1, 3, 3, 1/2, 3, false, 1/2, 1/2⟩ [] (fun _ => 0) 0
    ⟨0, 0, -999, 0, 0, 1, 1⟩ (by decide)).1⟩

/-- C7 If all three media-channel alphas and the word-of-mouth `p_generate`
are 0, an agent that starts `UNAWARE` is still `UNAWARE` after every step of
the whole run, for arbitrary neighbor views at each step and arbitrary
nonnegative draw streams (`np.random.random()` is always ≥ 0): with zero
alphas the media effect probability is 0, with zero `p_generate` no
word-of-mouth is generated, forgetting cannot act below `AWARE`, and natural
progression requires state `AWARE` or `INTERESTED`. -/
theorem c7_zero_alpha_stays_unaware (mix : MediaMix) (wom : WordOfMouthConfig)
    (tr : AgentTraits) (nbs : ℕ → List NeighborView) (ds : ℕ → Draws) (a : AgentState)
    (h1 : mix.sns.alpha = 0) (h2 : mix.video.alpha = 0) (h3 : mix.search.alpha = 0)
    (hp : wom.p_generate = 0) (hd : ∀ t j, 0 ≤ ds t j) (h0 : a.state = 0) :
    ∀ k, (agent_run mix wom tr nbs ds k a).state = 0 := by
  intro k
  induction k with
  | zero => exact h0
  | succ k ih =>
    exact agent_step_zero mix wom tr (nbs k) (ds k) 0 _ h1 h2 h3 hp (hd k) ih

theorem c7_witness :
    (agent_run ⟨⟨1, 0⟩, ⟨1/2, 0⟩, ⟨1/4, 0⟩⟩ ⟨0, 9/10⟩
      ⟨1/2, 1/2, 1/2, 1/2, 3, 3, 1/2, 3, false, 1/2, 1/2⟩
      (fun _ => []) (fun _ _ => 1/2) 5
      (initial_agent_state ⟨1/2, 1/2, 1/2, 1/2, 3, 3, 1/2, 3, false, 1/2, 1/2⟩)).state = 0 :=
  c7_zero_alpha_stays_unaware ⟨⟨1, 0⟩, ⟨1/2, 0⟩, ⟨1/4, 0⟩⟩ ⟨0, 9/10⟩
    ⟨1/2, 1/2, 1/2, 1/2, 3, 3, 1/2, 3, false, 1/2, 1/2⟩
    (fun _ => []) (fun _ _ => 1/2)
    (initial_agent_state ⟨1/2, 1/2, 1/2, 1/2, 3, 3, 1/2, 3, false, 1/2, 1/2⟩)
    rfl rfl rfl rfl (fun _ _ => by norm_num) rfl 5

/-- C8 `CustomerAgent.step` is exactly the unconditional sequential
composition of the six sub-steps in the claimed fixed order — increment
`days_in_state`, recompute time-varying traits, media exposure, word-of-mouth,
forgetting, natural progression — each later sub-step consuming the agent
state and draw position the previous one produced; and sub-step 1 increments
`days_in_state` by exactly one. -/
theorem c8_six_substeps_in_order (mix : MediaMix) (wom : WordOfMouthConfig)
    (tr : AgentTraits) (nbs : List NeighborView) (d : Draws) (i : ℕ) (a : AgentState) :
    agent_step mix wom tr nbs d i a =
      (let a1 := increment_days_in_state a
       let a2 := update_time_varying_attributes tr a1
       let r3 := process_media_exposure mix tr d i a2
       let r4 := process_word_of_mouth wom tr nbs d r3.2.1 r3.1
       let r5 := process_forgetting wom d r4.2.1 r4.1
       let r6 := update_state_natural tr d r5.2.1 r5.1
       (r6.1, r6.2.1, r3.2.2 ++ r4.2.2 ++ r5.2.2 ++ r6.2.2)) ∧
      (increment_days_in_state a).days_in_state = a.days_in_state + 1 :=
  ⟨rfl, rfl⟩

/-- C10 In each of the three advancing sub-steps (media exposure,
word-of-mouth, natural progression), any change of the funnel state leaves
`days_in_state = 0`, and `_advance_state` itself resets `days_in_state` to 0
whenever it advances — so the forgetting factor `(1 + days_in_state×0.1)`
restarts from its minimum after every state change, not only after forgetting
regressions. -/
theorem c10_advancement_resets_days (mix : MediaMix) (wom : WordOfMouthConfig)
    (tr : AgentTraits) (nbs : List NeighborView) (d : Draws) (i : ℕ) (a : AgentState) :
    ((process_media_exposure mix tr d i a).1.state ≠ a.state →
      (process_media_exposure mix tr d i a).1.days_in_state = 0) ∧
    ((process_word_of_mouth wom tr nbs d i a).1.state ≠ a.state →
      (process_word_of_mouth wom tr nbs d i a).1.days_in_state = 0) ∧
    ((update_state_natural tr d i a).1.state ≠ a.state →
      (update_state_natural tr d i a).1.days_in_state = 0) ∧
    (a.state < 6 → (advance_state SubStep.media a).1.days_in_state = 0) := by
  refine ⟨?_, ?_, ?_, ?_⟩
  · intro hne
    rcases process_media_exposure_days mix tr d i a with ⟨hs, -⟩ | hd0
    · exact absurd hs hne
    · exact hd0
  · intro hne
    rcases process_word_of_mouth_days wom tr nbs d i a with ⟨hs, -⟩ | hd0
    · exact absurd hs hne
    · exact hd0
  · intro hne
    rcases update_state_natural_days tr d i a with ⟨hs, -⟩ | hd0
    · exact absurd hs hne
    · exact hd0
  · intro hlt
    unfold advance_state ADOPTED
    rw [if_pos hlt]

theorem c10_witness :
    ((⟨2, 7, 0, 1, 0, 1, 1⟩ : AgentState).state < 6) ∧
      (advance_state SubStep.media ⟨2, 7, 0, 1, 0, 1, 1⟩).1.days_in_state = 0 :=
  ⟨by decide,
    (c10_advancement_resets_days ⟨⟨0, 0⟩, ⟨0, 0⟩, ⟨0, 0⟩⟩ ⟨0, 0⟩
      ⟨0, 0, 0, 0, 0, 0, 0, 0, false, 0, 0⟩ [] (fun _ => 0) 0
      ⟨2, 7, 0, 1, 0, 1, 1⟩).2.2.2 (by decide)⟩

/-- C9 For every graph whose node list has no duplicates and whose edges have
both endpoints among the nodes, and every sample of `max_nodes` nodes (the
shape `np.random.choice(nodes, max_nodes, replace=False)` returns), the
preview has at most `max_nodes` nodes, and every returned edge has both
endpoints in the returned node set. -/
theorem c9_preview_capped_and_closed (g : PreviewGraph) (max_nodes : ℕ)
    (sampled : List ℕ) (hnd : g.nodes.Nodup)
    (hwf : ∀ e ∈ g.edges, e.1 ∈ g.nodes ∧ e.2 ∈ g.nodes)
    (hlen : sampled.length = max_nodes) :
    (network_to_preview g max_nodes sampled).1.length ≤ max_nodes ∧
    ∀ e ∈ (network_to_preview g max_nodes sampled).2,
      e.1 ∈ (network_to_preview g max_nodes sampled).1 ∧
      e.2 ∈ (network_to_preview g max_nodes sampled).1 := by
  simp only [network_to_preview]
  split
  · constructor
    · have hsub : (g.nodes.filter fun v => decide (v ∈ sampled)) ⊆ sampled := by
        intro v hv
        have := (List.mem_filter.mp hv).2
        simpa using this
      have hnd2 : (g.nodes.filter fun v => decide (v ∈ sampled)).Nodup := hnd.filter _
      calc (subgraph g sampled).nodes.length ≤ sampled.length :=
            (hnd2.subperm hsub).length_le
        _ = max_nodes := hlen
    · intro e he
      rw [subgraph, List.mem_filter] at he
      obtain ⟨hmem, hkeep⟩ := he
      simp only [Bool.and_eq_true, decide_eq_true_eq] at hkeep
      obtain ⟨hn1, hn2⟩ := hwf e hmem
      exact ⟨List.mem_filter.mpr ⟨hn1, by simp [hkeep.1]⟩,
        List.mem_filter.mpr ⟨hn2, by simp [hkeep.2]⟩⟩
  · next hge =>
    refine ⟨by omega, ?_⟩
    intro e he
    exact hwf e he

theorem c9_witness :
    ([0, 1, 2] : List ℕ).Nodup ∧
      (network_to_preview ⟨[0, 1, 2], [(0, 1), (1, 2)]⟩ 2 [0, 1]).1.length ≤ 2 :=
  ⟨by decide, (c9_preview_capped_and_closed ⟨[0, 1, 2], [(0, 1), (1, 2)]⟩ 2 [0, 1]
    (by decide) (by decide) rfl).1⟩
